import Mathlib

/-!
Verification of the HoopNarrator play-detection state tracker
(`backend/app/analysis/play_detector.py`) against its design specification.

The Python module is shallowly embedded:

* 2D coordinates and bounding boxes are exact rationals (ℚ); player
  identifiers are ℚ as well, since the source falls back to a bounding-box
  coordinate when no tracking id is present.
* Values the source only *stores* and never branches on (`current_speed`,
  `speed_history`, the `distance` context of pointer plays) are real numbers,
  with the Euclidean norm given by `Real.sqrt`.
* Every comparison of a Euclidean norm with a nonnegative constant c in the
  source is embedded as the equivalent comparison of the squared norm with
  c^2 (`Real.sqrt d > c ↔ d > c^2` for `0 ≤ c`, `0 ≤ d`), keeping every
  branch condition of the model decidable and kernel-computable.  The
  nearest-player selection compares squared norms, which selects the same
  (first minimal) element because `Real.sqrt` is monotone.
* Python dicts (`self.players`, `current_players`) are insertion-ordered
  association lists; `deque(maxlen=n)` is a list bounded by `pushCap`.
* A `KeyError`/`IndexError` raised while a frame's detections are processed
  is an `Except.error`; the frame's partial mutations are then unobservable,
  matching a session that dies with the exception.
-/

set_option maxRecDepth 100000

namespace HoopNarrator

/-- Bounded append, `deque(maxlen := cap)` of the source: append at the right, evicting the oldest entries
so at most `cap` remain. -/
def pushCap (cap : ℕ) (xs : List α) (x : α) : List α :=
  let ys := xs ++ [x]
  ys.drop (ys.length - cap)

/-- Lookup in an insertion-ordered association list (Python dict read). -/
def alGet (k : ℚ) : List (ℚ × α) → Option α
  | [] => none
  | (k', v) :: rest => if k' = k then some v else alGet k rest

/-- Write to an insertion-ordered association list: an existing key keeps its
position, a new key is appended (Python dict write). -/
def alSet (k : ℚ) (v : α) : List (ℚ × α) → List (ℚ × α)
  | [] => [(k, v)]
  | (k', v') :: rest => if k' = k then (k', v) :: rest else (k', v') :: alSet k v rest

/-- Consecutive differences, `np.diff` of the source: consecutive differences of a sequence. -/
def diffs : List ℚ → List ℚ
  | a :: b :: rest => (b - a) :: diffs (b :: rest)
  | _ => []

/-- Squared Euclidean distance between two points. -/
def sqDist (p q : ℚ × ℚ) : ℚ :=
  (p.1 - q.1) ^ 2 + (p.2 - q.2) ^ 2

/-- The Euclidean distance `np.linalg.norm(p - q)`. -/
noncomputable def euclidDist (p q : ℚ × ℚ) : ℝ :=
  Real.sqrt ((sqDist p q : ℚ) : ℝ)

/-- State of one tracked player, `PlayerState` of the source.  The field `last_ball_distance`, initialised
to `float('inf')` and never read or written again anywhere in the module, is
not modelled. -/
structure PlayerState where
  player_id : ℚ
  position_history : List ((ℚ × ℚ) × ℕ) := []   -- deque(maxlen=30), oldest first
  speed_history : List ℝ := []                   -- deque(maxlen=10)
  current_speed : ℝ := 0
  has_ball : Bool := false
  jump_state : String := "grounded"
  jump_height : ℚ := 0

/-- The branch structure of `PlayerState._update_jump_state` on the signed
vertical change `dy` between the two most recent positions. -/
def PlayerState.jumpStep (p : PlayerState) (dy : ℚ) : PlayerState :=
  if dy < -2 then
    if p.jump_state ≠ "ascending" then
      { p with jump_state := "ascending", jump_height := 0 }
    else
      { p with jump_height := p.jump_height + |dy| }
  else if dy > 2 then
    if p.jump_state = "ascending" ∨ p.jump_state = "peak" then
      { p with jump_state := "descending" }
    else p
  else if p.jump_state = "ascending" ∧ |dy| < 1 then
    { p with jump_state := "peak" }
  else if p.jump_state = "descending" ∧ |dy| < 1 then
    { p with jump_state := "grounded", jump_height := 0 }
  else p

/-- The method `PlayerState._update_jump_state`: run `jumpStep` on the vertical change
between the two most recent positions (unchanged when fewer than two
positions are recorded). -/
def PlayerState.updateJumpState (p : PlayerState) : PlayerState :=
  match p.position_history.reverse with
  | ((_, cur_y), _) :: ((_, prev_y), _) :: _ => p.jumpStep (cur_y - prev_y)
  | _ => p

/-- The method `PlayerState.update_position`: if a prior position exists and the frame
delta is positive, recompute `current_speed` and append it to the bounded
`speed_history`; then append the new sample and run the jump state machine. -/
noncomputable def PlayerState.update_position (p : PlayerState) (position : ℚ × ℚ)
    (frame_idx : ℕ) : PlayerState :=
  let p' :=
    match p.position_history.getLast? with
    | some (prev_pos, prev_time) =>
      if prev_time < frame_idx then
        let speed := euclidDist position prev_pos / ((frame_idx - prev_time : ℚ) : ℝ)
        { p with current_speed := speed, speed_history := pushCap 10 p.speed_history speed }
      else p
    | none => p
  let p'' := { p' with position_history := pushCap 30 p'.position_history (position, frame_idx) }
  p''.updateJumpState

/-- State of the ball, `BallState` of the source. -/
structure BallState where
  position_history : List ((ℚ × ℚ) × ℕ) := []   -- deque(maxlen=30)
  current_position : Option (ℚ × ℚ) := none
  holder_id : Option ℚ := none
  in_air : Bool := false
  shot_arc : List (ℚ × ℚ) := []

/-- The in-air / shot-arc portion of `BallState.update_position`, applied to
the state with the new sample already appended: with at least two samples,
set `in_air` from the frame-to-frame displacement (source: `norm > 5.0`,
here `sqDist > 25`) and maintain `shot_arc`. -/
def BallState.updateAir (b' : BallState) (position : ℚ × ℚ) : BallState :=
  match b'.position_history.reverse with
  | _ :: ((prev_pos, _)) :: _ =>
    let inAir : Bool := decide (sqDist position prev_pos > 25)
    let arc :=
      if inAir ∧ b'.shot_arc = [] then [prev_pos, position]
      else if inAir then b'.shot_arc ++ [position]
      else []
    { b' with in_air := inAir, shot_arc := arc }
  | _ => b'

/-- The first part of `BallState.update_position`: append to the bounded
history, set `current_position`, then run the in-air / arc update. -/
def BallState.updateCore (b : BallState) (position : ℚ × ℚ)
    (frame_idx : ℕ) : BallState :=
  BallState.updateAir
    { b with position_history := pushCap 30 b.position_history (position, frame_idx),
             current_position := some position } position

/-- The method `BallState.update_position`: the history/in-air/arc update `updateCore`,
then the method's final statement — when not in air, clear the holder. -/
def BallState.update_position (b : BallState) (position : ℚ × ℚ)
    (frame_idx : ℕ) : BallState :=
  if (b.updateCore position frame_idx).in_air then b.updateCore position frame_idx
  else { b.updateCore position frame_idx with holder_id := none }

/-- The court-dimension dictionary the detector is constructed with; the
default is the source's default. -/
structure CourtDims where
  length_ft : ℚ := 94
  width_ft : ℚ := 50
  three_point_line_ft : ℚ := 23.75
  hoop_height_ft : ℚ := 10

/-- One recorded play.  `jump_height` is present for dunks and `distance` for
two/three pointers; the other keys are always present. -/
structure Play where
  frame : ℕ
  play_type : String
  player_id : ℚ
  confidence : ℚ
  timestamp : ℚ
  jump_height : Option ℚ
  distance : Option ℝ

/-- The `PlayDetector` session object.  The constant `SHOT_ARC_THRESHOLD`,
assigned in `__init__` and never read, is not modelled; `DUNK_JUMP_HEIGHT`
is the literal `3/2` below and `THREE_POINT_DISTANCE` is
`court_dimensions.three_point_line_ft`. -/
structure PlayDetector where
  players : List (ℚ × PlayerState) := []
  ball : BallState := {}
  frame_idx : ℕ := 0
  play_history : List Play := []
  court_dimensions : CourtDims := {}

/-- A fresh `PlayDetector()` with the default court dimensions. -/
def initialDetector : PlayDetector := {}

/-- The fixed hoop reference point `(length_ft / 2, 0)`. -/
def hoopPosition (cd : CourtDims) : ℚ × ℚ := (cd.length_ft / 2, 0)

/-- The most recent recorded position of a player, `(0, 0)` when none is
recorded (the guard the source's classifier uses; `_record_play` indexes
`position_history[-1]` unguarded, but is only reached for players whose
history is nonempty). -/
def lastPos (p : PlayerState) : ℚ × ℚ :=
  ((p.position_history.getLast?).map Prod.fst).getD (0, 0)

/-- The method `PlayDetector._record_play` (with the default confidence 0.9): build the
play record for the current frame, adding `jump_height` context for a dunk
and `distance` context for a pointer play. -/
noncomputable def recordPlay (s : PlayDetector) (play_type : String) (player_id : ℚ) : Play :=
  let base : Play :=
    { frame := s.frame_idx, play_type := play_type, player_id := player_id,
      confidence := 9/10, timestamp := (s.frame_idx : ℚ) / 30,
      jump_height := none, distance := none }
  if play_type = "dunk" then
    { base with jump_height := (alGet player_id s.players).map (·.jump_height) }
  else if play_type = "three_pointer" ∨ play_type = "two_pointer" then
    { base with distance := ((alGet player_id s.players).map
        (fun p => euclidDist (lastPos p) (hoopPosition s.court_dimensions))) }
  else base

/-- The per-player rules of `PlayDetector._detect_plays`, in the source's
order: dunk, then three/two-pointer, then layup.  The source compares the
player's Euclidean distance from the hoop with `THREE_POINT_DISTANCE`; the
squared comparison below is the same test. -/
noncomputable def playsForPlayer (s : PlayDetector) (player_id : ℚ) (p : PlayerState) :
    List Play :=
  let dunkPlays :=
    if p.has_ball ∧ p.jump_state = "peak" ∧ p.jump_height ≥ 3/2 then
      [recordPlay s "dunk" player_id]
    else []
  let pointerPlays :=
    if p.has_ball ∧ p.jump_state = "descending" then
      if sqDist (lastPos p) (hoopPosition s.court_dimensions) ≥
          s.court_dimensions.three_point_line_ft ^ 2 then
        [recordPlay s "three_pointer" player_id]
      else
        [recordPlay s "two_pointer" player_id]
    else []
  let layupPlays :=
    if p.has_ball ∧ (p.jump_state = "ascending" ∨ p.jump_state = "peak") ∧
        p.jump_height < 3/2 ∧ p.position_history.length > 5 then
      [recordPlay s "layup" player_id]
    else []
  dunkPlays ++ pointerPlays ++ layupPlays

/-- The generator `((p_id, p) for p_id, p in current_players.items() if p_id !=
self.ball.holder_id)`: the players touched this frame, in insertion order,
that are not the recorded holder (every player of `cur` is a key of
`s.players`; one that is not is skipped). -/
def eligibleDefenders (s : PlayDetector) (cur : List ℚ) : List (ℚ × PlayerState) :=
  cur.filterMap fun pid =>
    if some pid ≠ s.ball.holder_id then (alGet pid s.players).map (fun p => (pid, p))
    else none

/-- Python's `min(gen, key, default)`: the first element with minimal key, or
`none` when the sequence is empty.  The source's key is the Euclidean
distance of the player's most recent position to `bp`; comparing squared
distances selects the same element. -/
def nearestTo (bp : ℚ × ℚ) : List (ℚ × PlayerState) → Option (ℚ × PlayerState)
  | [] => none
  | x :: xs =>
    some (xs.foldl (fun best y =>
      if sqDist (lastPos y.2) bp < sqDist (lastPos best.2) bp then y else best) x)

/-- The block rule of `PlayDetector._detect_plays`, evaluated once per frame:
only when the ball is in the air with more than 3 arc points; a block is
recorded when more than 5 points exist, some consecutive vertical delta is
below −5, the ball has a current position, and a nearest non-holder player
among this frame's players exists. -/
noncomputable def blockPlays (s : PlayDetector) (cur : List ℚ) : List Play :=
  if s.ball.in_air ∧ s.ball.shot_arc.length > 3 then
    if s.ball.shot_arc.length > 5 then
      if (diffs (s.ball.shot_arc.map Prod.snd)).any (fun d => decide (d < -5)) then
        match s.ball.current_position with
        | some bp =>
          match nearestTo bp (eligibleDefenders s cur) with
          | some (pid, _) => [recordPlay s "block" pid]
          | none => []
        | none => []
      else []
    else []
  else []

/-- All plays one `_detect_plays` invocation records: the per-player rules
over the players touched this frame (insertion order), then the block rule.
(`current_players` maps ids to the same live objects `self.players` holds, so
the per-player lookup goes through the players dict.) -/
noncomputable def newPlays (s : PlayDetector) (cur : List ℚ) : List Play :=
  (cur.flatMap fun pid =>
    match alGet pid s.players with
    | some p => playsForPlayer s pid p
    | none => []) ++ blockPlays s cur

/-- The method `PlayDetector._detect_plays`: append every recorded play to the play log.
Nothing else of the state is read or written while the rules run. -/
noncomputable def detect_plays (s : PlayDetector) (cur : List ℚ) : PlayDetector :=
  { s with play_history := s.play_history ++ newPlays s cur }

/-- One detection dict of a frame's detection list.  A key that may be absent
is an `Option` (`none` = key missing); reading a missing required key is the
source's `KeyError`. -/
structure Detection where
  class_name : Option String := none
  bbox : Option (List ℚ) := none
  track_id : Option ℚ := none
  ball_bbox : Option (List ℚ) := none

/-- Dict access `det[key]`: the value, or `KeyError`. -/
def getKey (o : Option α) (key : String) : Except String α :=
  match o with
  | some v => Except.ok v
  | none => Except.error ("KeyError: " ++ key)

/-- Indexing `xs[i]` on a Python list: the value, or `IndexError`. -/
def getIdx (xs : List ℚ) (i : ℕ) : Except String ℚ :=
  match xs.get? i with
  | some v => Except.ok v
  | none => Except.error "IndexError: list index out of range"

/-- The mutable state the detection loop of `update_frame` threads: the
players dict, the ball, the insertion-ordered keys of `current_players`, and
the `ball_detected` flag. -/
structure FrameAcc where
  players : List (ℚ × PlayerState)
  ball : BallState
  current : List ℚ
  ball_detected : Bool

/-- The mutations the player branch of the detection loop applies, with the
resolved id, bounding-box center and possession flag: lazily create the
player, update its position, and on possession evidence set the holder,
force `in_air` false and mark the player as having the ball; finally record
the player among this frame's `current_players` keys. -/
noncomputable def playerBranch (acc : FrameAcc) (pid : ℚ) (center : ℚ × ℚ)
    (frame_idx : ℕ) (poss : Bool) : FrameAcc :=
  let players0 :=
    if (alGet pid acc.players).isNone then
      alSet pid ({ player_id := pid } : PlayerState) acc.players
    else acc.players
  let players1 :=
    match alGet pid players0 with
    | some p => alSet pid (p.update_position center frame_idx) players0
    | none => players0
  let ball :=
    if poss then { acc.ball with holder_id := some pid, in_air := false }
    else acc.ball
  let players2 :=
    if poss then
      match alGet pid players1 with
      | some p => alSet pid { p with has_ball := true } players1
      | none => players1
    else players1
  { players := players2, ball := ball,
    current := if pid ∈ acc.current then acc.current else acc.current ++ [pid],
    ball_detected := acc.ball_detected }

/-- The body of `update_frame`'s detection loop for one detection: a player
detection resolves an id (`det.get('track_id', det['bbox'][0])` — the
fallback argument is evaluated eagerly, so a missing `bbox` raises even when
`track_id` is present) and applies `playerBranch`; a ball detection updates
the ball; any other class is skipped. -/
noncomputable def processDetection (frame_idx : ℕ) (acc : FrameAcc) (det : Detection) :
    Except String FrameAcc := do
  let cn ← getKey det.class_name "class_name"
  if cn = "player" then
    let bbox ← getKey det.bbox "bbox"
    let b0 ← getIdx bbox 0
    let b1 ← getIdx bbox 1
    let b2 ← getIdx bbox 2
    let b3 ← getIdx bbox 3
    pure (playerBranch acc (det.track_id.getD b0) ((b0 + b2) / 2, (b1 + b3) / 2)
      frame_idx det.ball_bbox.isSome)
  else if cn = "ball" then
    let bbox ← getKey det.bbox "bbox"
    let b0 ← getIdx bbox 0
    let b1 ← getIdx bbox 1
    let b2 ← getIdx bbox 2
    let b3 ← getIdx bbox 3
    pure { acc with ball := acc.ball.update_position ((b0 + b2) / 2, (b1 + b3) / 2) frame_idx,
                    ball_detected := true }
  else
    pure acc

/-- The method `PlayDetector.update_frame`: advance the frame counter, process the
detections in order, then force `in_air` when no ball was detected and no
holder is recorded, and finally run the classifier over the players touched
this frame. -/
noncomputable def update_frame (s : PlayDetector) (detections : List Detection) :
    Except String PlayDetector := do
  let fi := s.frame_idx + 1
  let acc ← detections.foldlM (processDetection fi)
    { players := s.players, ball := s.ball, current := [], ball_detected := false }
  let ball :=
    if acc.ball_detected = false ∧ acc.ball.holder_id = none then
      { acc.ball with in_air := true }
    else acc.ball
  let s' : PlayDetector :=
    { players := acc.players, ball := ball, frame_idx := fi,
      play_history := s.play_history, court_dimensions := s.court_dimensions }
  pure (detect_plays s' acc.current)

/-- A session: `update_frame` over a list of frames from a given state. -/
noncomputable def runFrames (s : PlayDetector) (frames : List (List Detection)) :
    Except String PlayDetector :=
  frames.foldlM update_frame s

/-- The method `PlayDetector.get_recent_plays`: all plays whose timestamp is at least the
most recently appended play's timestamp minus the window; empty on an empty
log. -/
def get_recent_plays (s : PlayDetector) (last_n_seconds : ℚ) : List Play :=
  match s.play_history.getLast? with
  | none => []
  | some lastPlay =>
    let min_timestamp := lastPlay.timestamp - last_n_seconds
    s.play_history.filter (fun p => min_timestamp ≤ p.timestamp)

/-! ## Concrete inputs used by the claims -/

/-- A ball detection whose bounding box degenerates to the point `(x, y)`,
so the computed center is `(x, y)`. -/
def ballDet (x y : ℚ) : Detection :=
  { class_name := some "ball", bbox := some [x, y, x, y] }

/-- A player detection with tracking id `tid`, bounding box degenerate at
`(x, y)`, and possession evidence iff `poss`. -/
def playerDet (tid x y : ℚ) (poss : Bool) : Detection :=
  { class_name := some "player", bbox := some [x, y, x, y], track_id := some tid,
    ball_bbox := if poss then some [x, y, x, y] else none }

/-- Frame 1: the ball at `(0, 0)` and a possession detection for player 1
(ball processed first, so the possession is the final write of the frame);
frame 2: only the ball, displaced by more than the in-air threshold. -/
def c1Frames : List (List Detection) :=
  [[ballDet 0 0, playerDet 1 0 50 true], [ballDet 10 10]]

/-- Frame 1 reports possession for player 1; frame 2 detects the same player
with no possession evidence. -/
def c2Frames : List (List Detection) :=
  [[playerDet 1 0 50 true], [playerDet 1 0 50 false]]

/-- A player detection with a class tag but no bounding box, followed by a
well-formed ball detection in the same frame. -/
def c3Frame : List Detection :=
  [{ class_name := some "player", track_id := some 1 }, ballDet 5 5]

/-- Two ball-only frames put the ball in the air with a two-point arc; the
third frame carries possession evidence for player 1 and no ball. -/
def c5Frames : List (List Detection) :=
  [[ballDet 0 0], [ballDet 10 10], [playerDet 1 20 20 true]]

/-- Player 1 gets possession evidence in frame 1 (making `has_ball` true from
then on), rises by 3 in frame 2, then holds steady (peak); the ball moves
down 6 per frame, building a 6-point arc of strong downward deltas by
frame 6. -/
def c6Frames : List (List Detection) :=
  [[playerDet 1 0 50 true, ballDet 0 100],
   [playerDet 1 0 47 false, ballDet 0 94],
   [playerDet 1 0 47 false, ballDet 0 88],
   [playerDet 1 0 47 false, ballDet 0 82],
   [playerDet 1 0 47 false, ballDet 0 76],
   [playerDet 1 0 47 false, ballDet 0 70]]

/-- Apply a sequence of `(position, frame_index)` samples to a player. -/
noncomputable def updateSeq (p : PlayerState) (samples : List ((ℚ × ℚ) × ℕ)) :
    PlayerState :=
  samples.foldl (fun q s => q.update_position s.1 s.2) p

/-- The seed sample followed by five descents of exactly 3 units. -/
def c4Ascent : List ((ℚ × ℚ) × ℕ) :=
  [((0, 50), 1), ((0, 47), 2), ((0, 44), 3), ((0, 41), 4), ((0, 38), 5), ((0, 35), 6)]

/-- A play record carrying only a timestamp, as the play-log query reads it. -/
def tsPlay (t : ℚ) : Play :=
  { frame := 0, play_type := "test", player_id := 0, confidence := 9/10,
    timestamp := t, jump_height := none, distance := none }

/-- A detector whose log holds plays at timestamps 1, 3, 6, 9. -/
def c7Detector : PlayDetector :=
  { play_history := [tsPlay 1, tsPlay 3, tsPlay 6, tsPlay 9] }

/-- A ball with one recorded position sample. -/
def c5Ball : BallState :=
  { position_history := [((0, 0), 1)] }

/-- A player that already has the ball. -/
def c2P : PlayerState := { player_id := 1, has_ball := true }

/-- A session tracking that player. -/
def c2Detector : PlayDetector := { players := [(1, c2P)] }

/-- The state one empty frame after `c2Detector`: the counter advanced and
the unheld, undetected ball was marked in-air. -/
def c2After : PlayDetector :=
  { players := [(1, c2P)], ball := { in_air := true }, frame_idx := 1 }

/-- A player with one recorded position sample. -/
def c10Player : PlayerState :=
  { player_id := 2, position_history := [((0, 0), 1)] }

/-! ## General lemmas about the embedding -/

theorem pushCap_length (cap : ℕ) (xs : List α) (x : α) :
    (pushCap cap xs x).length = min (xs.length + 1) cap := by
  simp [pushCap]
  omega

theorem length_ge_two_exists {l : List α} (h : 2 ≤ l.length) :
    ∃ a b t, l = a :: b :: t := by
  match l with
  | [] => simp at h
  | [a] => simp at h
  | a :: b :: t => exact ⟨a, b, t, rfl⟩

theorem alGet_alSet_self (k : ℚ) (v : α) (l : List (ℚ × α)) :
    alGet k (alSet k v l) = some v := by
  induction l with
  | nil => simp [alGet, alSet]
  | cons hd tl ih =>
    by_cases h : hd.1 = k <;> simp [alGet, alSet, h, ih]

theorem alGet_alSet_ne (k k' : ℚ) (v : α) (l : List (ℚ × α)) (h : k ≠ k') :
    alGet k (alSet k' v l) = alGet k l := by
  induction l with
  | nil =>
    simp only [alSet, alGet]
    rw [if_neg (fun e => h e.symm)]
  | cons hd tl ih =>
    by_cases h1 : hd.1 = k' <;> by_cases h2 : hd.1 = k <;>
      simp_all [alGet, alSet]

theorem jumpStep_has_ball (p : PlayerState) (dy : ℚ) :
    (p.jumpStep dy).has_ball = p.has_ball := by
  unfold PlayerState.jumpStep
  repeat' split
  all_goals rfl

theorem jumpStep_speed (p : PlayerState) (dy : ℚ) :
    (p.jumpStep dy).current_speed = p.current_speed ∧
      (p.jumpStep dy).speed_history = p.speed_history := by
  unfold PlayerState.jumpStep
  repeat' split
  all_goals exact ⟨rfl, rfl⟩

theorem updateJumpState_has_ball (p : PlayerState) :
    (p.updateJumpState).has_ball = p.has_ball := by
  unfold PlayerState.updateJumpState
  split
  · rw [jumpStep_has_ball]
  · rfl

theorem updateJumpState_speed (p : PlayerState) :
    (p.updateJumpState).current_speed = p.current_speed ∧
      (p.updateJumpState).speed_history = p.speed_history := by
  unfold PlayerState.updateJumpState
  split
  · exact jumpStep_speed _ _
  · exact ⟨rfl, rfl⟩

theorem update_position_has_ball (p : PlayerState) (pos : ℚ × ℚ) (fi : ℕ) :
    (p.update_position pos fi).has_ball = p.has_ball := by
  unfold PlayerState.update_position
  rw [updateJumpState_has_ball]
  split
  · split <;> rfl
  · rfl

/-- A fold in the `Except` monad that ends in `ok` preserves any property
each successful step preserves. -/
theorem foldlM_except_preserve {σ α : Type} (f : σ → α → Except String σ)
    (Q : σ → Prop) (hf : ∀ s a s', f s a = Except.ok s' → Q s → Q s') :
    ∀ (l : List α) (s s' : σ), l.foldlM f s = Except.ok s' → Q s → Q s' := by
  intro l
  induction l with
  | nil =>
    intro s s' h hq
    simp only [List.foldlM_nil] at h
    cases h
    exact hq
  | cons a t ih =>
    intro s s' h hq
    simp only [List.foldlM_cons] at h
    cases hfa : f s a with
    | error e =>
      rw [hfa] at h
      change (Except.error e : Except String σ) = Except.ok s' at h
      cases h
    | ok s1 =>
      rw [hfa] at h
      exact ih s1 s' h (hf s a s1 hfa hq)

theorem update_position_air_eq (b : BallState) (pos : ℚ × ℚ) (fi : ℕ) :
    (b.update_position pos fi).in_air = (b.updateCore pos fi).in_air ∧
      (b.update_position pos fi).shot_arc = (b.updateCore pos fi).shot_arc := by
  unfold BallState.update_position
  split <;> exact ⟨rfl, rfl⟩

theorem updateAir_not_in_air_arc (b' : BallState) (pos : ℚ × ℚ)
    (hlen : 2 ≤ b'.position_history.length)
    (h : (b'.updateAir pos).in_air = false) :
    (b'.updateAir pos).shot_arc = [] := by
  have hrev : 2 ≤ b'.position_history.reverse.length := by
    rw [List.length_reverse]; exact hlen
  obtain ⟨a, c, t, heq⟩ := length_ge_two_exists hrev
  obtain ⟨⟨cx, cy⟩, cf⟩ := c
  unfold BallState.updateAir at h ⊢
  rw [heq] at h ⊢
  dsimp only at h ⊢
  simp [h]

/-! ## C1 -/

/-- C1 (counterexample): after possession evidence for player 1 in frame 1
and a fast ball movement in frame 2, the session reaches a state in which
`in_air` is true while `holder_id` is still player 1 — the claimed invariant
`in_air → holder_id = none` fails on a reachable state. -/
theorem C1_counterexample :
    (runFrames initialDetector c1Frames).toOption.map
      (fun s => (s.ball.in_air, s.ball.holder_id)) = some (true, some 1) := by
  with_unfolding_all decide

/-- C1 (amended): the holder-clearing the source actually performs is the
final statement of `BallState.update_position`: whenever that call leaves
`in_air` false, `holder_id` is none.  The possession path of `update_frame`
sets the holder while forcing `in_air` false, and a later in-air transition
does not clear it, so the claimed reachable-state invariant does not hold. -/
theorem C1_theorem (b : BallState) (pos : ℚ × ℚ) (fi : ℕ)
    (h : (b.update_position pos fi).in_air = false) :
    (b.update_position pos fi).holder_id = none := by
  unfold BallState.update_position at h ⊢
  split at h
  · rename_i hc
    simp [h] at hc
  · rename_i hc
    rw [if_neg hc]

/-- C1 (witness): a concrete `update_position` call that leaves the ball not
in the air has cleared the holder. -/
theorem C1_witness :
    (({ holder_id := some 7 } : BallState).update_position (0, 0) 1).in_air = false ∧
      (({ holder_id := some 7 } : BallState).update_position (0, 0) 1).holder_id = none :=
  ⟨by with_unfolding_all decide,
   C1_theorem { holder_id := some 7 } (0, 0) 1 (by with_unfolding_all decide)⟩

/-! ## C2 -/

theorem ok_bind {α β : Type} (a : α) (f : α → Except String β) :
    (Except.ok a >>= f) = f a := rfl

theorem error_bind {α β : Type} (e : String) (f : α → Except String β) :
    ((Except.error e : Except String α) >>= f) = Except.error e := rfl

theorem pure_eq_ok {α : Type} (a : α) : (pure a : Except String α) = Except.ok a := rfl

/-- The player branch can only create a player, preserve one's `has_ball`, or
set it to true: it never makes a true `has_ball` false. -/
theorem playerBranch_has_ball (acc : FrameAcc) (k : ℚ) (center : ℚ × ℚ)
    (fi : ℕ) (poss : Bool) (pid : ℚ) (p : PlayerState)
    (hp : alGet pid acc.players = some p) (hb : p.has_ball = true) :
    ∃ p', alGet pid (playerBranch acc k center fi poss).players = some p' ∧
      p'.has_ball = true := by
  unfold playerBranch
  by_cases hk : k = pid
  · subst hk
    cases poss <;>
      simp [hp, alGet_alSet_self, update_position_has_ball, hb]
  · refine ⟨p, ?_, hb⟩
    dsimp only
    repeat' split
    all_goals simp [alGet_alSet_ne _ _ _ _ (Ne.symm hk), hp]

/-- One detection-loop step never makes a true `has_ball` false. -/
theorem processDetection_has_ball (fi : ℕ) (acc : FrameAcc) (det : Detection)
    (acc' : FrameAcc) (h : processDetection fi acc det = Except.ok acc')
    (pid : ℚ) (p : PlayerState) (hp : alGet pid acc.players = some p)
    (hb : p.has_ball = true) :
    ∃ p', alGet pid acc'.players = some p' ∧ p'.has_ball = true := by
  unfold processDetection at h
  simp only [getKey, getIdx] at h
  repeat' (first
    | (rw [ok_bind] at h)
    | (rw [error_bind] at h)
    | (split at h))
  all_goals try simp only [pure_eq_ok] at h
  all_goals cases h
  all_goals first
    | exact ⟨p, hp, hb⟩
    | exact playerBranch_has_ball acc _ _ fi _ pid p hp hb

/-- A whole `update_frame` call never makes a true `has_ball` false. -/
theorem update_frame_has_ball (s : PlayDetector) (dets : List Detection)
    (s' : PlayDetector) (h : update_frame s dets = Except.ok s')
    (pid : ℚ) (p : PlayerState) (hp : alGet pid s.players = some p)
    (hb : p.has_ball = true) :
    ∃ p', alGet pid s'.players = some p' ∧ p'.has_ball = true := by
  unfold update_frame at h
  dsimp only at h
  cases hacc : dets.foldlM (processDetection (s.frame_idx + 1))
      { players := s.players, ball := s.ball, current := [],
        ball_detected := false } with
  | error e =>
    rw [hacc] at h
    rw [error_bind] at h
    cases h
  | ok acc =>
    rw [hacc] at h
    rw [ok_bind] at h
    simp only [pure_eq_ok] at h
    injection h with h2
    have hQ : ∃ p', alGet pid acc.players = some p' ∧ p'.has_ball = true := by
      refine foldlM_except_preserve (processDetection (s.frame_idx + 1))
        (fun a => ∃ p', alGet pid a.players = some p' ∧ p'.has_ball = true)
        ?_ dets _ acc hacc ⟨p, hp, hb⟩
      rintro a det a' hstep ⟨q, hq, hqb⟩
      exact processDetection_has_ball _ a det a' hstep pid q hq hqb
    subst h2
    simpa [detect_plays] using hQ

/-- C2 (counterexample): possession evidence in frame 1 sets player 1's
`has_ball`; frame 2 detects the same player with no possession evidence, yet
`has_ball` is still true afterwards — the source never resets the flag. -/
theorem C2_counterexample :
    (runFrames initialDetector c2Frames).toOption.map
      (fun s => (alGet 1 s.players).map (·.has_ball)) = some (some true) := by
  with_unfolding_all decide

/-- C2 (amended): `has_ball` becomes true on possession evidence and is never
reset by any operation: if a tracked player's `has_ball` is true before an
`update_frame` call, it is still true afterwards — in particular it stays
true through frames with no possession evidence, contradicting the claim
that it is true only while evidence is present in the current frame. -/
theorem C2_theorem (s : PlayDetector) (dets : List Detection)
    (s' : PlayDetector) (h : update_frame s dets = Except.ok s')
    (pid : ℚ) (p : PlayerState) (hp : alGet pid s.players = some p)
    (hb : p.has_ball = true) :
    ∃ p', alGet pid s'.players = some p' ∧ p'.has_ball = true :=
  update_frame_has_ball s dets s' h pid p hp hb

/-- C2 (witness): a player holding the ball still has `has_ball` true after a
frame with no possession evidence at all. -/
theorem C2_witness :
    (update_frame c2Detector [] = Except.ok c2After ∧
      alGet 1 c2Detector.players = some c2P ∧ c2P.has_ball = true) ∧
    ∃ p', alGet 1 c2After.players = some p' ∧ p'.has_ball = true :=
  ⟨⟨by with_unfolding_all rfl, by with_unfolding_all rfl, rfl⟩,
   C2_theorem c2Detector [] c2After (by with_unfolding_all rfl) 1 c2P
     (by with_unfolding_all rfl) rfl⟩

/-! ## C3 -/

/-- C3: a player detection that is missing its bounding box makes
`update_frame` raise `KeyError` (the source reads `det['bbox']` with no
guard), aborting the whole frame: the well-formed ball detection that
follows it in the same frame is never processed.  The claim that the engine
skips the offending detection and continues is contradicted by the code. -/
theorem C3_theorem :
    update_frame initialDetector c3Frame = Except.error "KeyError: bbox" := by
  with_unfolding_all rfl

/-! ## C4 -/

/-- C4: from a fresh (grounded) player, a seed sample followed by five
updates each moving up by 3 units ends `ascending` with `jump_height = 12`;
a further steady update reaches `peak`; an update moving down by 3 reaches
`descending`; a final steady update reaches `grounded` with the height reset
to 0. -/
theorem C4_theorem :
    ((updateSeq { player_id := 1 } c4Ascent).jump_state = "ascending" ∧
      (updateSeq { player_id := 1 } c4Ascent).jump_height = 12) ∧
    ((updateSeq { player_id := 1 } (c4Ascent ++ [((0, 35), 7)])).jump_state = "peak") ∧
    ((updateSeq { player_id := 1 }
        (c4Ascent ++ [((0, 35), 7), ((0, 38), 8)])).jump_state = "descending") ∧
    ((updateSeq { player_id := 1 }
        (c4Ascent ++ [((0, 35), 7), ((0, 38), 8), ((0, 38), 9)])).jump_state = "grounded" ∧
      (updateSeq { player_id := 1 }
        (c4Ascent ++ [((0, 35), 7), ((0, 38), 8), ((0, 38), 9)])).jump_height = 0) := by
  with_unfolding_all decide

/-! ## C5 -/

/-- C5 (counterexample): the ball goes in-air with a two-point arc in
frame 2; possession evidence in frame 3 forces `in_air` false without
touching `shot_arc`, reaching a state with `in_air = false` and a nonempty
`shot_arc` — the claimed reachable-state invariant fails. -/
theorem C5_counterexample :
    (runFrames initialDetector c5Frames).toOption.map
      (fun s => (s.ball.in_air, s.ball.shot_arc, s.ball.holder_id)) =
      some (false, [(0, 0), (10, 10)], some 1) := by
  with_unfolding_all decide

/-- C5 (amended): the arc reset the source performs is inside
`BallState.update_position`: whenever such a call, made with at least one
previously recorded position, leaves `in_air` false, `shot_arc` is empty.
The possession-evidence path of `update_frame` sets `in_air` false without
resetting `shot_arc`, so the claimed invariant over all reachable states
fails. -/
theorem C5_theorem (b : BallState) (pos : ℚ × ℚ) (fi : ℕ)
    (hne : b.position_history ≠ [])
    (h : (b.update_position pos fi).in_air = false) :
    (b.update_position pos fi).shot_arc = [] := by
  rw [(update_position_air_eq b pos fi).1] at h
  rw [(update_position_air_eq b pos fi).2]
  unfold BallState.updateCore at h ⊢
  refine updateAir_not_in_air_arc _ pos ?_ h
  have : b.position_history.length ≠ 0 := by
    simpa [List.length_eq_zero] using hne
  simp [pushCap_length]
  omega

/-- C5 (witness): a concrete slow ball update from a one-sample history
leaves `in_air` false with an empty arc. -/
theorem C5_witness :
    (c5Ball.position_history ≠ [] ∧
      (c5Ball.update_position (1, 0) 2).in_air = false) ∧
    (c5Ball.update_position (1, 0) 2).shot_arc = [] :=
  ⟨⟨by with_unfolding_all decide, by with_unfolding_all decide⟩,
   C5_theorem c5Ball (1, 0) 2 (by with_unfolding_all decide)
     (by with_unfolding_all decide)⟩

/-! ## C6 -/

theorem recordPlay_fields (s : PlayDetector) (t : String) (pid : ℚ) :
    (recordPlay s t pid).play_type = t ∧ (recordPlay s t pid).player_id = pid ∧
      (recordPlay s t pid).frame = s.frame_idx := by
  unfold recordPlay
  repeat' split
  all_goals exact ⟨rfl, rfl, rfl⟩

/-- A play the per-player rules record carries that player's id, the current
frame, and a type whose rule constrains the player's jump state: a layup
needs `ascending`/`peak`, a pointer play needs `descending`. -/
theorem playsForPlayer_mem (s : PlayDetector) (pid : ℚ) (p : PlayerState) (pl : Play)
    (h : pl ∈ playsForPlayer s pid p) :
    pl.player_id = pid ∧ pl.frame = s.frame_idx ∧
    (pl.play_type = "layup" → p.jump_state = "ascending" ∨ p.jump_state = "peak") ∧
    (pl.play_type = "two_pointer" ∨ pl.play_type = "three_pointer" →
      p.jump_state = "descending") := by
  unfold playsForPlayer at h
  simp only [List.mem_append] at h
  rcases h with (h | h) | h
  · split at h
    · simp only [List.mem_singleton] at h
      subst h
      obtain ⟨ht, hpid, hf⟩ := recordPlay_fields s "dunk" pid
      refine ⟨hpid, hf, fun hl => absurd (ht.symm.trans hl) (by decide), fun hl => ?_⟩
      rcases hl with hl | hl <;> exact absurd (ht.symm.trans hl) (by decide)
    · simp at h
  · split at h
    · rename_i hc
      split at h
      · simp only [List.mem_singleton] at h
        subst h
        obtain ⟨ht, hpid, hf⟩ := recordPlay_fields s "three_pointer" pid
        exact ⟨hpid, hf, fun hl => absurd (ht.symm.trans hl) (by decide), fun _ => hc.2⟩
      · simp only [List.mem_singleton] at h
        subst h
        obtain ⟨ht, hpid, hf⟩ := recordPlay_fields s "two_pointer" pid
        exact ⟨hpid, hf, fun hl => absurd (ht.symm.trans hl) (by decide), fun _ => hc.2⟩
    · simp at h
  · split at h
    · rename_i hc
      simp only [List.mem_singleton] at h
      subst h
      obtain ⟨ht, hpid, hf⟩ := recordPlay_fields s "layup" pid
      refine ⟨hpid, hf, fun _ => hc.2.1, fun hl => ?_⟩
      rcases hl with hl | hl <;> exact absurd (ht.symm.trans hl) (by decide)
    · simp at h

theorem blockPlays_mem (s : PlayDetector) (cur : List ℚ) (pl : Play)
    (h : pl ∈ blockPlays s cur) :
    pl.play_type = "block" ∧ pl.frame = s.frame_idx := by
  unfold blockPlays at h
  repeat' split at h
  all_goals simp only [List.mem_singleton, List.not_mem_nil] at h
  subst h
  exact ⟨(recordPlay_fields s "block" _).1, (recordPlay_fields s "block" _).2.2⟩

/-- Every play one classifier invocation records carries the invoking
frame index. -/
theorem newPlays_frame (s : PlayDetector) (cur : List ℚ) (pl : Play)
    (h : pl ∈ newPlays s cur) : pl.frame = s.frame_idx := by
  unfold newPlays at h
  rcases List.mem_append.1 h with h | h
  · rcases List.mem_flatMap.1 h with ⟨pid, _, hmem⟩
    cases halg : alGet pid s.players with
    | none => rw [halg] at hmem; exact absurd hmem (List.not_mem_nil pl)
    | some q =>
      rw [halg] at hmem
      exact (playsForPlayer_mem s pid q pl hmem).2.1
  · exact (blockPlays_mem s cur pl h).2

/-- A non-block play one classifier invocation records comes from the
per-player rules of the player it credits. -/
theorem newPlays_player (s : PlayDetector) (cur : List ℚ) (pl : Play)
    (h : pl ∈ newPlays s cur) (hnb : pl.play_type ≠ "block") :
    ∃ q, alGet pl.player_id s.players = some q ∧
      pl ∈ playsForPlayer s pl.player_id q := by
  unfold newPlays at h
  rcases List.mem_append.1 h with h | h
  · rcases List.mem_flatMap.1 h with ⟨pid, _, hmem⟩
    cases halg : alGet pid s.players with
    | none => rw [halg] at hmem; exact absurd hmem (List.not_mem_nil pl)
    | some q =>
      rw [halg] at hmem
      have hpl := playsForPlayer_mem s pid q pl hmem
      rw [hpl.1]
      exact ⟨q, halg, hmem⟩
  · exact absurd (blockPlays_mem s cur pl h).1 hnb

/-- One classifier invocation cannot credit the same player with both a
layup and a pointer play: the two rules read the same player state and
require different jump states. -/
theorem newPlays_no_layup_pointer (s : PlayDetector) (cur : List ℚ) (pid : ℚ)
    (h1 : ∃ pl ∈ newPlays s cur, pl.play_type = "layup" ∧ pl.player_id = pid)
    (h2 : ∃ pl ∈ newPlays s cur,
      (pl.play_type = "two_pointer" ∨ pl.play_type = "three_pointer") ∧
        pl.player_id = pid) :
    False := by
  obtain ⟨pl1, hm1, ht1, hp1⟩ := h1
  obtain ⟨pl2, hm2, ht2, hp2⟩ := h2
  obtain ⟨q1, hq1, hmem1⟩ := newPlays_player s cur pl1 hm1 (by rw [ht1]; decide)
  obtain ⟨q2, hq2, hmem2⟩ := newPlays_player s cur pl2 hm2
    (by rcases ht2 with h | h <;> rw [h] <;> decide)
  rw [hp1] at hq1 hmem1
  rw [hp2] at hq2 hmem2
  have hqq := hq1.symm.trans hq2
  injection hqq with hqq
  subst hqq
  have hs1 := (playsForPlayer_mem s pid q1 pl1 hmem1).2.2.1 ht1
  have hs2 := (playsForPlayer_mem s pid q1 pl2 hmem2).2.2.2 ht2
  rcases hs1 with hs1 | hs1 <;> rw [hs1] at hs2 <;> exact absurd hs2 (by decide)

/-- The play log credits player `pid` with both a layup and a pointer-type
play (two- or three-pointer) in frame `f`. -/
def laidUpAndPointed (s : PlayDetector) (pid : ℚ) (f : ℕ) : Prop :=
  (∃ pl ∈ s.play_history,
    pl.play_type = "layup" ∧ pl.player_id = pid ∧ pl.frame = f) ∧
  (∃ pl ∈ s.play_history,
    (pl.play_type = "two_pointer" ∨ pl.play_type = "three_pointer") ∧
      pl.player_id = pid ∧ pl.frame = f)

/-- The session invariant: logged frames never exceed the counter, and no
player is credited with both a layup and a pointer play in one frame. -/
def logInv (s : PlayDetector) : Prop :=
  (∀ pl ∈ s.play_history, pl.frame ≤ s.frame_idx) ∧
  ∀ pid f, ¬ laidUpAndPointed s pid f

theorem update_frame_logInv (s : PlayDetector) (dets : List Detection)
    (s' : PlayDetector) (h : update_frame s dets = Except.ok s')
    (hinv : logInv s) : logInv s' := by
  unfold update_frame at h
  dsimp only at h
  cases hacc : dets.foldlM (processDetection (s.frame_idx + 1))
      { players := s.players, ball := s.ball, current := [],
        ball_detected := false } with
  | error e => rw [hacc, error_bind] at h; cases h
  | ok acc =>
    rw [hacc, ok_bind] at h
    simp only [pure_eq_ok] at h
    cases h
    constructor
    · intro pl hpl
      simp only [detect_plays] at hpl ⊢
      rcases List.mem_append.1 hpl with hpl | hpl
      · exact le_trans (hinv.1 pl hpl) (Nat.le_succ _)
      · exact le_of_eq (newPlays_frame _ _ pl hpl)
    · intro pid f hboth
      obtain ⟨⟨pl1, hm1, hb1⟩, ⟨pl2, hm2, hb2⟩⟩ := hboth
      simp only [detect_plays] at hm1 hm2
      rcases List.mem_append.1 hm1 with hm1 | hm1 <;>
        rcases List.mem_append.1 hm2 with hm2 | hm2
      · exact hinv.2 pid f ⟨⟨pl1, hm1, hb1⟩, ⟨pl2, hm2, hb2⟩⟩
      · have h1 := hinv.1 pl1 hm1
        have h2 := newPlays_frame _ _ pl2 hm2
        rw [hb1.2.2] at h1
        rw [hb2.2.2] at h2
        dsimp only at h2
        omega
      · have h1 := newPlays_frame _ _ pl1 hm1
        have h2 := hinv.1 pl2 hm2
        rw [hb1.2.2] at h1
        rw [hb2.2.2] at h2
        dsimp only at h1
        omega
      · exact newPlays_no_layup_pointer _ _ pid
          ⟨pl1, hm1, hb1.1, hb1.2.1⟩ ⟨pl2, hm2, hb2.1, hb2.2.1⟩

theorem runFrames_logInv (frames : List (List Detection)) (s : PlayDetector)
    (h : runFrames initialDetector frames = Except.ok s) : logInv s := by
  refine foldlM_except_preserve update_frame logInv
    (fun a dets a' hstep hq => update_frame_logInv a dets a' hstep hq)
    frames initialDetector s h ⟨?_, ?_⟩
  · intro pl hpl
    exact absurd hpl (List.not_mem_nil pl)
  · intro pid f hboth
    obtain ⟨⟨pl, hpl, _⟩, _⟩ := hboth
    exact absurd hpl (List.not_mem_nil pl)

/-- C6 (counterexample): in no session reachable from a fresh detector is a
player credited with both a layup and a pointer-type play in the same frame:
the layup rule requires jump state `ascending`/`peak` while the pointer rule
requires `descending` on the very same player state, so the claimed
non-exclusivity between layup and pointer plays cannot occur. -/
theorem C6_counterexample :
    ¬ ∃ (frames : List (List Detection)) (s : PlayDetector) (pid : ℚ) (f : ℕ),
        runFrames initialDetector frames = Except.ok s ∧ laidUpAndPointed s pid f := by
  rintro ⟨frames, s, pid, f, hrun, hboth⟩
  exact (runFrames_logInv frames s hrun).2 pid f hboth

/-- C6 (amended, part 1): the permissive rule evaluation does credit one
player with two play categories in one frame — running `c6Frames` credits
player 1 with both a `layup` and a `block` in frame 6. -/
theorem C6_theorem :
    (runFrames initialDetector c6Frames).toOption.map
      (fun s => s.play_history.map (fun pl => (pl.frame, pl.play_type, pl.player_id))) =
      some [(6, "layup", 1), (6, "block", 1)] := by
  with_unfolding_all decide

/-! ## C7 -/

/-- C7: `get_recent_plays` returns exactly the plays of the log whose
timestamp is at least the most recently appended play's timestamp minus the
window (inclusive); it returns `[]` on an empty log; and on a log with
timestamps 1, 3, 6, 9 and window 5 it returns exactly the plays at 6 and 9.
(The embedding is a pure function of the log, so the log is not mutated.) -/
theorem C7_theorem :
    (∀ (s : PlayDetector) (w : ℚ) (pl : Play),
       pl ∈ get_recent_plays s w ↔
         ∃ last, s.play_history.getLast? = some last ∧ pl ∈ s.play_history ∧
           last.timestamp - w ≤ pl.timestamp) ∧
    (∀ (s : PlayDetector) (w : ℚ), s.play_history = [] → get_recent_plays s w = []) ∧
    get_recent_plays c7Detector 5 = [tsPlay 6, tsPlay 9] := by
  refine ⟨?_, ?_, ?_⟩
  · intro s w pl
    unfold get_recent_plays
    cases h : s.play_history.getLast? with
    | none => simp [h]
    | some last => simp [h, List.mem_filter, and_comm]
  · intro s w h
    unfold get_recent_plays
    simp [h]
  · with_unfolding_all rfl

/-! ## C8 -/

theorem blockPlays_nil (s : PlayDetector) : blockPlays s [] = [] := by
  unfold blockPlays
  repeat' split
  all_goals first
    | rfl
    | (rename_i heq; simp [eligibleDefenders, nearestTo] at heq)

theorem newPlays_nil (s : PlayDetector) : newPlays s [] = [] := by
  simp [newPlays, blockPlays_nil]

theorem detect_plays_nil (s : PlayDetector) : detect_plays s [] = s := by
  simp [detect_plays, newPlays_nil]

/-- C8: an empty detection list advances the counter by one, records no
play, and leaves every player state and the ball's history and arc
unchanged; the only other change is forcing the ball in-air when no holder
is recorded (the stated equality pins every field of the resulting state). -/
theorem C8_theorem (s : PlayDetector) :
    update_frame s [] = Except.ok
      { s with frame_idx := s.frame_idx + 1,
               ball := if s.ball.holder_id = none then { s.ball with in_air := true }
                       else s.ball } := by
  unfold update_frame
  dsimp only
  rw [List.foldlM_nil, pure_eq_ok, ok_bind]
  dsimp only
  rw [detect_plays_nil]
  by_cases h : s.ball.holder_id = none <;> simp [h, pure_eq_ok]

/-! ## C9 -/

/-- The first-minimal-element property of the fold implementing Python's
`min`. -/
theorem foldl_minBy_spec {β : Type} (key : β → ℚ) :
    ∀ (xs : List β) (acc : β),
      (xs.foldl (fun best y => if key y < key best then y else best) acc) ∈ acc :: xs ∧
      key (xs.foldl (fun best y => if key y < key best then y else best) acc) ≤ key acc ∧
      ∀ q ∈ xs,
        key (xs.foldl (fun best y => if key y < key best then y else best) acc) ≤ key q := by
  intro xs
  induction xs with
  | nil =>
    intro acc
    refine ⟨List.mem_singleton.2 rfl, le_refl _, ?_⟩
    intro q hq
    exact absurd hq (List.not_mem_nil q)
  | cons y ys ih =>
    intro acc
    simp only [List.foldl_cons]
    obtain ⟨hmem, hle, hall⟩ := ih (if key y < key acc then y else acc)
    have hacc' : key (if key y < key acc then y else acc) ≤ key acc ∧
        key (if key y < key acc then y else acc) ≤ key y := by
      by_cases hc : key y < key acc
      · rw [if_pos hc]; exact ⟨le_of_lt hc, le_refl _⟩
      · rw [if_neg hc]; exact ⟨le_refl _, le_of_not_lt hc⟩
    refine ⟨?_, le_trans hle hacc'.1, ?_⟩
    · rcases List.mem_cons.1 hmem with hmem | hmem
      · rw [hmem]
        by_cases hc : key y < key acc
        · rw [if_pos hc]
          exact List.mem_cons_of_mem _ (List.mem_cons_self _ _)
        · rw [if_neg hc]
          exact List.mem_cons_self _ _
      · exact List.mem_cons_of_mem _ (List.mem_cons_of_mem _ hmem)
    · intro q hq
      rcases List.mem_cons.1 hq with hq | hq
      · rw [hq]
        exact le_trans hle hacc'.2
      · exact hall q hq

/-- Python's `min(..., default=(None, None))` yields a member minimizing the
squared-distance key; by monotonicity of the square root this is also the
Euclidean-nearest member, and ties go to the earlier element. -/
theorem nearestTo_spec (bp : ℚ × ℚ) (l : List (ℚ × PlayerState))
    (e : ℚ × PlayerState) (h : nearestTo bp l = some e) :
    e ∈ l ∧ ∀ q ∈ l, sqDist (lastPos e.2) bp ≤ sqDist (lastPos q.2) bp := by
  cases l with
  | nil => cases h
  | cons x xs =>
    unfold nearestTo at h
    injection h with h2
    subst h2
    obtain ⟨hmem, hle, hall⟩ := foldl_minBy_spec (fun z => sqDist (lastPos z.2) bp) xs x
    refine ⟨hmem, ?_⟩
    intro q hq
    rcases List.mem_cons.1 hq with hq | hq
    · rw [hq]; exact hle
    · exact hall q hq

theorem nearestTo_eq_none (bp : ℚ × ℚ) (l : List (ℚ × PlayerState))
    (h : nearestTo bp l = none) : l = [] := by
  cases l with
  | nil => rfl
  | cons x xs => cases h

theorem updateAir_current_position (b' : BallState) (pos : ℚ × ℚ) :
    (b'.updateAir pos).current_position = b'.current_position := by
  unfold BallState.updateAir
  split <;> rfl

theorem update_position_current_position (b : BallState) (pos : ℚ × ℚ) (fi : ℕ) :
    (b.update_position pos fi).current_position = some pos := by
  unfold BallState.update_position BallState.updateCore
  split <;> rw [updateAir_current_position]

theorem playerBranch_ball_fields (acc : FrameAcc) (k : ℚ) (c : ℚ × ℚ) (fi : ℕ)
    (poss : Bool) :
    (playerBranch acc k c fi poss).ball.shot_arc = acc.ball.shot_arc ∧
      (playerBranch acc k c fi poss).ball.current_position =
        acc.ball.current_position := by
  unfold playerBranch
  dsimp only
  split <;> exact ⟨rfl, rfl⟩

/-- One detection-loop step preserves "a nonempty arc implies a recorded
ball position". -/
theorem processDetection_ballPos (fi : ℕ) (acc : FrameAcc) (det : Detection)
    (acc' : FrameAcc) (h : processDetection fi acc det = Except.ok acc')
    (hq : acc.ball.shot_arc ≠ [] → acc.ball.current_position.isSome = true) :
    acc'.ball.shot_arc ≠ [] → acc'.ball.current_position.isSome = true := by
  unfold processDetection at h
  simp only [getKey, getIdx] at h
  repeat' (first
    | (rw [ok_bind] at h)
    | (rw [error_bind] at h)
    | (split at h))
  all_goals try simp only [pure_eq_ok] at h
  all_goals cases h
  all_goals try dsimp only
  all_goals first
    | exact hq
    | (rw [(playerBranch_ball_fields _ _ _ _ _).1,
           (playerBranch_ball_fields _ _ _ _ _).2]; exact hq)
    | (intro _; rw [update_position_current_position]; rfl)

theorem update_frame_ballPos (s : PlayDetector) (dets : List Detection)
    (s' : PlayDetector) (h : update_frame s dets = Except.ok s')
    (hq : s.ball.shot_arc ≠ [] → s.ball.current_position.isSome = true) :
    s'.ball.shot_arc ≠ [] → s'.ball.current_position.isSome = true := by
  unfold update_frame at h
  dsimp only at h
  cases hacc : dets.foldlM (processDetection (s.frame_idx + 1))
      { players := s.players, ball := s.ball, current := [],
        ball_detected := false } with
  | error e => rw [hacc, error_bind] at h; cases h
  | ok acc =>
    rw [hacc, ok_bind] at h
    simp only [pure_eq_ok] at h
    cases h
    have hAcc : acc.ball.shot_arc ≠ [] → acc.ball.current_position.isSome = true := by
      refine foldlM_except_preserve (processDetection (s.frame_idx + 1))
        (fun a => a.ball.shot_arc ≠ [] → a.ball.current_position.isSome = true)
        ?_ dets _ acc hacc hq
      intro a det a' hstep hqa
      exact processDetection_ballPos _ a det a' hstep hqa
    simp only [detect_plays]
    try dsimp only
    split
    · exact hAcc
    · exact hAcc

/-- C9: with the ball in the air, an arc longer than 3 and a recorded ball
position, the block rule emits exactly when the arc exceeds 5 points, some
consecutive vertical delta is below −5, and an eligible (detected,
non-holder) player exists; any emitted play is a `block` credited to an
eligible player at minimal Euclidean distance from the ball (so a frame with
no eligible player emits nothing, and no error arises: the rule is a total
function).  The last conjunct discharges the recorded-position premise: in
every reachable session a nonempty arc comes with a recorded ball
position. -/
theorem C9_theorem :
    (∀ (s : PlayDetector) (cur : List ℚ) (bp : ℚ × ℚ),
      s.ball.in_air = true → 3 < s.ball.shot_arc.length →
      s.ball.current_position = some bp →
      ((blockPlays s cur ≠ [] ↔
         (5 < s.ball.shot_arc.length ∧
          (diffs (s.ball.shot_arc.map Prod.snd)).any (fun d => decide (d < -5)) = true ∧
          eligibleDefenders s cur ≠ [])) ∧
       ∀ pl ∈ blockPlays s cur,
         pl.play_type = "block" ∧
         ∃ e ∈ eligibleDefenders s cur, pl.player_id = e.1 ∧
           ∀ q ∈ eligibleDefenders s cur,
             euclidDist (lastPos e.2) bp ≤ euclidDist (lastPos q.2) bp)) ∧
    (∀ (frames : List (List Detection)) (s : PlayDetector),
      runFrames initialDetector frames = Except.ok s →
      s.ball.shot_arc ≠ [] → ∃ bp, s.ball.current_position = some bp) := by
  constructor
  · intro s cur bp hair hlen hbp
    unfold blockPlays
    rw [if_pos ⟨hair, hlen⟩]
    by_cases h5 : 5 < s.ball.shot_arc.length
    · rw [if_pos h5]
      by_cases hany :
          (diffs (s.ball.shot_arc.map Prod.snd)).any (fun d => decide (d < -5)) = true
      · rw [if_pos hany, hbp]
        dsimp only
        split
        · rename_i pid psnd hnt
          have hspec := nearestTo_spec bp _ _ hnt
          have hne : eligibleDefenders s cur ≠ [] := List.ne_nil_of_mem hspec.1
          constructor
          · exact ⟨fun _ => ⟨h5, hany, hne⟩, fun _ => by simp⟩
          · intro pl hpl
            obtain rfl : pl = recordPlay s "block" pid := List.mem_singleton.1 hpl
            refine ⟨(recordPlay_fields s "block" pid).1,
              ⟨(pid, psnd), hspec.1, ?_, ?_⟩⟩
            · exact (recordPlay_fields s "block" pid).2.1
            · intro q hq
              exact Real.sqrt_le_sqrt (by exact_mod_cast hspec.2 q hq)
        · rename_i hnt
          have hel := nearestTo_eq_none bp _ hnt
          constructor
          · simp [hel]
          · intro pl hpl
            exact absurd hpl (List.not_mem_nil pl)
      · rw [if_neg hany]
        constructor
        · simp [hany]
        · intro pl hpl
          exact absurd hpl (List.not_mem_nil pl)
    · rw [if_neg h5]
      constructor
      · simp [h5]
      · intro pl hpl
        exact absurd hpl (List.not_mem_nil pl)
  · intro frames s hrun harc
    have hq : s.ball.shot_arc ≠ [] → s.ball.current_position.isSome = true := by
      refine foldlM_except_preserve update_frame
        (fun a => a.ball.shot_arc ≠ [] → a.ball.current_position.isSome = true)
        ?_ frames initialDetector s hrun ?_
      · intro a dets a' hstep hqa
        exact update_frame_ballPos a dets a' hstep hqa
      · intro hne
        exact absurd rfl hne
    exact Option.isSome_iff_exists.1 (hq harc)

/-! ## C10 -/

/-- C10: after an update whose frame index strictly exceeds the stored one,
`current_speed` equals the Euclidean distance between the two most recent
positions divided by the frame delta, is nonnegative, and is appended to the
bounded speed history; an update repeating the stored frame index leaves the
speed and the speed history untouched (no division by zero). -/
theorem C10_theorem (p : PlayerState) (pos prev : ℚ × ℚ) (fi fj : ℕ)
    (hlast : p.position_history.getLast? = some (prev, fj)) :
    (fj < fi →
      (p.update_position pos fi).current_speed =
        euclidDist pos prev / ((fi - fj : ℚ) : ℝ) ∧
      0 ≤ (p.update_position pos fi).current_speed ∧
      (p.update_position pos fi).speed_history =
        pushCap 10 p.speed_history ((p.update_position pos fi).current_speed)) ∧
    (fj = fi →
      (p.update_position pos fi).current_speed = p.current_speed ∧
      (p.update_position pos fi).speed_history = p.speed_history) := by
  unfold PlayerState.update_position
  rw [hlast]
  dsimp only
  constructor
  · intro hlt
    rw [if_pos hlt]
    refine ⟨?_, ?_, ?_⟩
    · rw [(updateJumpState_speed _).1]
    · rw [(updateJumpState_speed _).1]
      show (0 : ℝ) ≤ euclidDist pos prev / ((fi - fj : ℚ) : ℝ)
      apply div_nonneg (Real.sqrt_nonneg _)
      have hq : (0 : ℚ) ≤ (fi : ℚ) - (fj : ℚ) := by
        rw [sub_nonneg]
        exact_mod_cast le_of_lt hlt
      exact_mod_cast hq
    · rw [(updateJumpState_speed _).2, (updateJumpState_speed _).1]
  · intro heq
    subst heq
    rw [if_neg (lt_irrefl fj)]
    exact ⟨(updateJumpState_speed _).1, (updateJumpState_speed _).2⟩

/-- C10 (witness): a concrete second sample one frame later gives the
distance-over-delta speed, nonnegative, appended to the history. -/
theorem C10_witness :
    (c10Player.update_position (0, 3) 2).current_speed =
      euclidDist (0, 3) (0, 0) / (((2 : ℕ) - (1 : ℕ) : ℚ) : ℝ) ∧
    0 ≤ (c10Player.update_position (0, 3) 2).current_speed ∧
    (c10Player.update_position (0, 3) 2).speed_history =
      pushCap 10 c10Player.speed_history
        ((c10Player.update_position (0, 3) 2).current_speed) :=
  (C10_theorem c10Player (0, 3) (0, 0) 2 1
    (by with_unfolding_all decide)).1 (by decide)

end HoopNarrator
